import Mathlib

/-!
# Verification of the Geoloc location service

Shallow embedding of `src/app/services/location_service.py` and
`src/app/models/location.py`: the hub registry (`LocationService`), its
load/parse pipeline, the structural queries, and the nearest-hub resolver
(Python `min`/`sorted` keyed on the haversine distance, both stable with
respect to input order).

Python floats are modelled by `ℚ` for stored coordinates (every float value
is a rational) and by `ℝ` for the distance computation, which goes through
transcendental functions.
-/

namespace Geoloc

/-- Geographic coordinates (`Coordinates` in `app/models/location.py`):
latitude/longitude, validated to [-90,90] × [-180,180] at construction by the
loader (`parseRecord` below). -/
structure Coordinates where
  latitude : ℚ
  longitude : ℚ
deriving DecidableEq

/-- Delivery hub (`Location` in `app/models/location.py`). Field for field as
in the pydantic model; optional fields are `Option`. -/
structure Location where
  id : String
  name : String
  address : String
  city : Option String
  state : Option String
  postal_code : Option String
  country : Option String
  coordinates : Coordinates
  region : Option String
  type : Option String
  active : Bool
deriving DecidableEq

/-- A raw cell for a numeric CSV column: absent (`KeyError` on access),
present but not parseable by Python `float` (`ValueError`), or a number. -/
inductive Cell where
  | missing
  | nonNumeric
  | num (x : ℚ)
deriving DecidableEq

/-- One raw record handed to the loader (a row of the pandas `DataFrame` in
`_load_from_csv`). String columns are `Option String` (`row["k"]` raises
`KeyError` when the column is absent, `row.get("k")` yields `None`);
the two numeric columns are `Cell`; `active` is `Option Bool`
(`row.get("active", True)`). -/
structure RawRecord where
  id : Option String := none
  name : Option String := none
  address : Option String := none
  city : Option String := none
  state : Option String := none
  postal_code : Option String := none
  country : Option String := none
  latitude : Cell := Cell.missing
  longitude : Cell := Cell.missing
  region : Option String := none
  type : Option String := none
  active : Option Bool := none
deriving DecidableEq

/-- The per-row body of the loader loop in `_load_from_csv` (lines 114-140):
build a `Location` from a raw record; `none` models the `except KeyError`
(missing `name`/`address`/`latitude`/`longitude`) and `except ValueError`
(non-numeric `float(...)`, or the pydantic range check of `Coordinates`,
whose `ValidationError` is a `ValueError`) branches, which skip the row. -/
def parseRecord (r : RawRecord) : Option Location :=
  match r.name, r.address, r.latitude, r.longitude with
  | some nm, some addr, Cell.num lat, Cell.num lon =>
      if -90 ≤ lat ∧ lat ≤ 90 ∧ -180 ≤ lon ∧ lon ≤ 180 then
        some { id := r.id.getD ""
               name := nm
               address := addr
               city := r.city
               state := r.state
               postal_code := r.postal_code
               country := r.country
               coordinates := { latitude := lat, longitude := lon }
               region := r.region
               type := r.type
               active := r.active.getD true }
      else none
  | _, _, _, _ => none

/-- Registry state of `LocationService` (`__init__`): the ordered hub
sequence plus the `last_loaded` timestamp (time modelled as `Nat`). -/
structure LocationService where
  locations : List Location
  last_loaded : Option Nat
deriving DecidableEq

/-- Embeds `LocationService.__init__`: empty registry, no load yet. -/
def LocationService.init : LocationService :=
  { locations := [], last_loaded := none }

/-- Embeds `_load_from_csv` (lines 93-146). The file probe / `pd.read_csv` stage is
modelled by the `Except` input: a source-level failure (`CSV file not found`,
unreadable file) raises before the registry is touched; on success the loop
over rows replaces `self.locations` with the rows that parse
(`List.filterMap parseRecord`). Returns the new state or the error, paired
so that the caller's state on the error path is explicit. -/
def _load_from_csv (svc : LocationService) (src : Except String (List RawRecord)) :
    LocationService × Option String :=
  match src with
  | Except.error e => (svc, some ("Error loading from CSV: " ++ e))
  | Except.ok rows => ({ svc with locations := rows.filterMap parseRecord }, none)

/-- Embeds `load_locations` (lines 57-91): dispatch to the source loader; on success
set `last_loaded` and return the loaded list, on failure re-raise as
`LocationServiceError` leaving the state as the loader left it. -/
def load_locations (svc : LocationService) (src : Except String (List RawRecord))
    (now : Nat) : LocationService × Except String (List Location) :=
  match _load_from_csv svc src with
  | (svc2, some e) => (svc2, Except.error ("Failed to load locations: " ++ e))
  | (svc2, none) =>
      ({ svc2 with last_loaded := some now }, Except.ok svc2.locations)

/-- Embeds `reload_locations` (lines 361-372): just calls `load_locations` again. -/
def reload_locations (svc : LocationService) (src : Except String (List RawRecord))
    (now : Nat) : LocationService × Except String (List Location) :=
  load_locations svc src now

/-- Embeds `get_location_by_id` (lines 374-387): first hub with matching id. -/
def get_location_by_id (svc : LocationService) (location_id : String) : Option Location :=
  svc.locations.find? (fun loc => loc.id == location_id)

/-- Embeds `get_locations_by_region` (lines 389-399): hubs whose `region` equals the
argument (a `None` region never equals a string argument). -/
def get_locations_by_region (svc : LocationService) (region : String) : List Location :=
  svc.locations.filter (fun loc => loc.region == some region)

/-- Embeds `get_locations_count` (lines 401-415): the `(total, active, inactive)`
counters of the returned dictionary, in that order. -/
def get_locations_count (svc : LocationService) : Nat × Nat × Nat :=
  ((svc.locations.length),
   (svc.locations.filter (fun loc => loc.active)).length,
   svc.locations.length - (svc.locations.filter (fun loc => loc.active)).length)

/-- Mean Earth radius in kilometers used by the `haversine` package
(`Unit.KILOMETERS`), as pinned by the spec. -/
def earthRadiusKm : ℚ := 6371.0088

/-- Degrees to radians, as the `haversine` package applies to each input. -/
noncomputable def toRad (x : ℚ) : ℝ := (x : ℝ) * Real.pi / 180

/-- Modelled from the spec: the great-circle distance of the external
`haversine` library (a dependency, not part of `src/`), i.e. the haversine
formula with mean Earth radius 6371.0088 km. The library computes
`2·R·asin(√a)` with `a = sin²(Δφ/2) + cos φ₁ · cos φ₂ · sin²(Δλ/2)`, the
arcsine form of the spec's `atan2` formula (equal for `0 ≤ a ≤ 1`). -/
noncomputable def haversineKm (lat1 lon1 lat2 lon2 : ℚ) : ℝ :=
  2 * (earthRadiusKm : ℝ) * Real.arcsin (Real.sqrt (
    Real.sin ((toRad lat2 - toRad lat1) / 2) ^ 2 +
    Real.cos (toRad lat1) * Real.cos (toRad lat2) *
      Real.sin ((toRad lon2 - toRad lon1) / 2) ^ 2))

/-- Embeds `calculate_distance` (lines 417-432): kilometer haversine distance
between two coordinate pairs. -/
noncomputable def calculate_distance (point1 point2 : Coordinates) : ℝ :=
  haversineKm point1.latitude point1.longitude point2.latitude point2.longitude

theorem calculate_distance_eq (point1 point2 : Coordinates) :
    calculate_distance point1 point2 =
      haversineKm point1.latitude point1.longitude point2.latitude point2.longitude := rfl

/-- The argument of `Real.sqrt` in the haversine formula is symmetric in the
two points. -/
theorem hav_arg_symm (A B C D : ℝ) :
    Real.sin ((C - A) / 2) ^ 2 + Real.cos A * Real.cos C * Real.sin ((D - B) / 2) ^ 2 =
    Real.sin ((A - C) / 2) ^ 2 + Real.cos C * Real.cos A * Real.sin ((B - D) / 2) ^ 2 := by
  have h1 : Real.sin ((A - C) / 2) = -Real.sin ((C - A) / 2) := by
    rw [show (A - C) / 2 = -((C - A) / 2) by ring, Real.sin_neg]
  have h2 : Real.sin ((B - D) / 2) = -Real.sin ((D - B) / 2) := by
    rw [show (B - D) / 2 = -((D - B) / 2) by ring, Real.sin_neg]
  rw [h1, h2]
  ring

theorem haversineKm_symm (lat1 lon1 lat2 lon2 : ℚ) :
    haversineKm lat1 lon1 lat2 lon2 = haversineKm lat2 lon2 lat1 lon1 := by
  simp only [haversineKm]
  rw [hav_arg_symm]

theorem haversineKm_self (lat lon : ℚ) : haversineKm lat lon lat lon = 0 := by
  simp only [haversineKm, sub_self, zero_div, Real.sin_zero]
  norm_num [Real.sqrt_zero, Real.arcsin_zero]

/- The distance layer is opaque from here on: the resolver treats distances
as abstract reals, and keeping the transcendental/cast internals closed to
unification keeps the later proofs tractable. -/
attribute [irreducible] toRad haversineKm calculate_distance

/-- Python's `min(xs, key=f)` on the nonempty list `x :: l`: left-to-right
scan replacing the current best only on a strictly smaller key, so the first
element attaining the minimum wins. -/
noncomputable def pyMin {α : Type} (f : α → ℝ) : α → List α → α
  | x, [] => x
  | x, y :: l => if f y < f x then pyMin f y l else pyMin f x l

/-- Insert `x` into `l` before the first element whose key is not strictly
below `f x`: the insertion step of a stable ascending sort by key. -/
noncomputable def insertByKeyLt {α : Type} (f : α → ℝ) (x : α) : List α → List α
  | [] => [x]
  | y :: l => if f y < f x then y :: insertByKeyLt f x l else x :: y :: l

/-- Python's `sorted(xs, key=f)`: a stable ascending sort by key (Python's
sort is stable; stable sorting is unique given the key, so insertion sort
with the strict-less insertion step models it exactly). -/
noncomputable def sortByKey {α : Type} (f : α → ℝ) : List α → List α
  | [] => []
  | x :: l => insertByKeyLt f x (sortByKey f l)

/-- Python's slice `xs[:n]` for an `int` `n`: first `n` elements for
`n ≥ 0`, and all but the last `|n|` for negative `n` (`max 0 (len + n)`). -/
def pySlice {α : Type} (l : List α) (n : Int) : List α :=
  if 0 ≤ n then l.take n.toNat else l.take ((l.length : Int) + n).toNat

/-- The `active_locations` filter shared by both resolver entry points
(lines 299 and 340). -/
def active_locations (svc : LocationService) : List Location :=
  svc.locations.filter (fun loc => loc.active)

/-- The `distances` list both resolver entry points build (lines 304-312 and
345-353): `(location, haversine(point, location))` for each active hub, in
registry order. -/
noncomputable def distances (svc : LocationService) (coordinates : Coordinates) :
    List (Location × ℝ) :=
  (active_locations svc).map (fun loc => (loc, calculate_distance coordinates loc.coordinates))

/-- Embeds `find_nearest_location` (lines 280-318): guard on an empty registry, then
on an empty active set (`min` is only reached when `distances` is nonempty),
then `min(distances, key=lambda x: x[1])`. -/
noncomputable def find_nearest_location (svc : LocationService)
    (coordinates : Coordinates) : Except String (Location × ℝ) :=
  if svc.locations = [] then Except.error "No locations loaded"
  else
    match distances svc coordinates with
    | [] => Except.error "No active locations found"
    | d :: ds => Except.ok (pyMin (fun p => p.2) d ds)

/-- Embeds `find_nearest_n_locations` (lines 320-359): same guards, then
`sorted(distances, key=lambda x: x[1])[:n]`. -/
noncomputable def find_nearest_n_locations (svc : LocationService)
    (coordinates : Coordinates) (n : Int) : Except String (List (Location × ℝ)) :=
  if svc.locations = [] then Except.error "No locations loaded"
  else if active_locations svc = [] then Except.error "No active locations found"
  else Except.ok (pySlice (sortByKey (fun p => p.2) (distances svc coordinates)) n)

/-! ## Lemmas about the Python `min`/`sorted` models -/

theorem pyMin_mem {α : Type} (f : α → ℝ) (l : List α) (x : α) :
    pyMin f x l ∈ x :: l := by
  induction l generalizing x with
  | nil => simp [pyMin]
  | cons y t ih =>
    simp only [pyMin]
    split
    · have h := ih y
      simp only [List.mem_cons] at h ⊢
      tauto
    · have h := ih x
      simp only [List.mem_cons] at h ⊢
      tauto

theorem pyMin_le {α : Type} (f : α → ℝ) (l : List α) (x : α) :
    ∀ y ∈ x :: l, f (pyMin f x l) ≤ f y := by
  induction l generalizing x with
  | nil =>
    intro y hy
    simp only [List.mem_cons, List.not_mem_nil, or_false] at hy
    subst hy
    simp [pyMin]
  | cons z t ih =>
    intro y hy
    simp only [List.mem_cons] at hy
    by_cases h : f z < f x
    · rw [show pyMin f x (z :: t) = pyMin f z t from by simp only [pyMin, if_pos h]]
      rcases hy with rfl | rfl | hy
      · exact le_of_lt (lt_of_le_of_lt (ih z z (List.mem_cons_self z t)) h)
      · exact ih y y (List.mem_cons_self y t)
      · exact ih z y (List.mem_cons_of_mem z hy)
    · rw [show pyMin f x (z :: t) = pyMin f x t from by simp only [pyMin, if_neg h]]
      rcases hy with rfl | rfl | hy
      · exact ih y y (List.mem_cons_self y t)
      · exact le_trans (ih x x (List.mem_cons_self x t)) (le_of_not_lt h)
      · exact ih x y (List.mem_cons_of_mem x hy)

theorem pyMin_split {α : Type} (f : α → ℝ) (l : List α) (x : α) :
    ∃ l₁ l₂, x :: l = l₁ ++ pyMin f x l :: l₂ ∧
      ∀ z ∈ l₁, f (pyMin f x l) < f z := by
  induction l generalizing x with
  | nil => exact ⟨[], [], by simp [pyMin], by simp⟩
  | cons y t ih =>
    by_cases h : f y < f x
    · have hx : pyMin f x (y :: t) = pyMin f y t := by simp only [pyMin, if_pos h]
      obtain ⟨l₁, l₂, heq, hlt⟩ := ih y
      refine ⟨x :: l₁, l₂, ?_, ?_⟩
      · rw [hx, List.cons_append, ← heq]
      · intro z hz
        rw [hx]
        rcases List.mem_cons.1 hz with rfl | hz
        · exact lt_of_le_of_lt (pyMin_le f t y y (List.mem_cons_self y t)) h
        · exact hlt z hz
    · have hx : pyMin f x (y :: t) = pyMin f x t := by simp only [pyMin, if_neg h]
      obtain ⟨l₁, l₂, heq, hlt⟩ := ih x
      cases l₁ with
      | nil =>
        simp only [List.nil_append] at heq
        injection heq with h1 h2
        refine ⟨[], y :: t, ?_, by simp⟩
        rw [hx, List.nil_append, ← h1]
      | cons a l₁ =>
        injection heq with h1 h2
        subst h1
        refine ⟨x :: y :: l₁, l₂, ?_, ?_⟩
        · rw [hx]
          exact congrArg (fun s => x :: y :: s) h2
        · intro z hz
          rw [hx]
          rcases List.mem_cons.1 hz with rfl | hz
          · exact hlt z (List.mem_cons_self z l₁)
          · rcases List.mem_cons.1 hz with rfl | hz
            · exact lt_of_lt_of_le (hlt x (List.mem_cons_self x l₁)) (le_of_not_lt h)
            · exact hlt z (List.mem_cons_of_mem x hz)

theorem pyMin_map {α : Type} (g : α → ℝ) (l : List α) (x : α) :
    pyMin (fun p : α × ℝ => p.2) (x, g x) (l.map (fun a => (a, g a)))
      = (pyMin g x l, g (pyMin g x l)) := by
  induction l generalizing x with
  | nil => simp [pyMin]
  | cons y t ih =>
    simp only [List.map_cons, pyMin]
    by_cases h : g y < g x
    · rw [if_pos h, if_pos h, ih]
    · rw [if_neg h, if_neg h, ih]

theorem find?_append_of_none {α : Type} (p : α → Bool) (l₁ : List α) (m : α)
    (l₂ : List α) (h₁ : ∀ z ∈ l₁, p z = false) (hm : p m = true) :
    List.find? p (l₁ ++ m :: l₂) = some m := by
  induction l₁ with
  | nil => simp [List.find?_cons, hm]
  | cons a t ih =>
    have ha : p a = false := h₁ a (List.mem_cons_self a t)
    simp only [List.cons_append, List.find?_cons, ha]
    exact ih (fun z hz => h₁ z (List.mem_cons_of_mem a hz))

theorem find?_eq_head?_filter {α : Type} (p : α → Bool) (l : List α) :
    List.find? p l = (l.filter p).head? := by
  induction l with
  | nil => rfl
  | cons a t ih =>
    by_cases h : p a
    · rw [List.find?_cons_of_pos _ h, List.filter_cons_of_pos h]
      rfl
    · rw [List.find?_cons_of_neg _ h, List.filter_cons_of_neg h]
      exact ih

theorem find?_filter_eq {α : Type} (q p : α → Bool) (l : List α) :
    (l.filter q).find? p = l.find? (fun z => q z && p z) := by
  induction l with
  | nil => rfl
  | cons a t ih =>
    cases hq : q a <;> cases hp : p a <;>
      simp [List.filter_cons, List.find?_cons, hq, hp, ih]

theorem mem_insertByKeyLt {α : Type} (f : α → ℝ) (x z : α) (l : List α) :
    z ∈ insertByKeyLt f x l ↔ z = x ∨ z ∈ l := by
  induction l with
  | nil => simp [insertByKeyLt]
  | cons y t ih =>
    simp only [insertByKeyLt]
    split
    · simp only [List.mem_cons, ih]
      tauto
    · simp only [List.mem_cons]

theorem length_insertByKeyLt {α : Type} (f : α → ℝ) (x : α) (l : List α) :
    (insertByKeyLt f x l).length = l.length + 1 := by
  induction l with
  | nil => rfl
  | cons y t ih =>
    simp only [insertByKeyLt]
    split
    · simp [ih]
    · simp

theorem pairwise_insertByKeyLt {α : Type} (f : α → ℝ) (x : α) (l : List α)
    (h : l.Pairwise (fun a b => f a ≤ f b)) :
    (insertByKeyLt f x l).Pairwise (fun a b => f a ≤ f b) := by
  induction l with
  | nil => simp [insertByKeyLt]
  | cons y t ih =>
    rcases List.pairwise_cons.1 h with ⟨hy, ht⟩
    simp only [insertByKeyLt]
    by_cases hlt : f y < f x
    · rw [if_pos hlt]
      refine List.pairwise_cons.2 ⟨?_, ih ht⟩
      intro z hz
      rcases (mem_insertByKeyLt f x z t).1 hz with rfl | hz
      · exact le_of_lt hlt
      · exact hy z hz
    · rw [if_neg hlt]
      refine List.pairwise_cons.2 ⟨?_, h⟩
      intro z hz
      rcases List.mem_cons.1 hz with rfl | hz
      · exact le_of_not_lt hlt
      · exact le_trans (le_of_not_lt hlt) (hy z hz)

theorem filter_insertByKeyLt {α : Type} (f : α → ℝ) (x : α) (v : ℝ) (l : List α) :
    (insertByKeyLt f x l).filter (fun z => decide (f z = v)) =
      if f x = v then x :: l.filter (fun z => decide (f z = v))
      else l.filter (fun z => decide (f z = v)) := by
  induction l with
  | nil =>
    by_cases h : f x = v <;> simp [insertByKeyLt, List.filter_cons, h]
  | cons y t ih =>
    simp only [insertByKeyLt]
    by_cases hlt : f y < f x
    · rw [if_pos hlt]
      by_cases hy : f y = v
      · have hx : ¬ f x = v := fun hc => absurd (hc.trans hy.symm) (ne_of_gt hlt)
        simp [List.filter_cons, hy, ih, hx]
      · simp only [List.filter_cons, ih]
        by_cases hx : f x = v <;> simp [hx, hy]
    · rw [if_neg hlt]
      by_cases hx : f x = v <;> simp [List.filter_cons, hx]

theorem length_sortByKey {α : Type} (f : α → ℝ) (l : List α) :
    (sortByKey f l).length = l.length := by
  induction l with
  | nil => rfl
  | cons x t ih => simp [sortByKey, length_insertByKeyLt, ih]

theorem mem_sortByKey {α : Type} (f : α → ℝ) (z : α) (l : List α) :
    z ∈ sortByKey f l ↔ z ∈ l := by
  induction l with
  | nil => simp [sortByKey]
  | cons x t ih => simp [sortByKey, mem_insertByKeyLt, ih]

theorem pairwise_sortByKey {α : Type} (f : α → ℝ) (l : List α) :
    (sortByKey f l).Pairwise (fun a b => f a ≤ f b) := by
  induction l with
  | nil => simp [sortByKey]
  | cons x t ih => exact pairwise_insertByKeyLt f x _ ih

theorem filter_sortByKey {α : Type} (f : α → ℝ) (v : ℝ) (l : List α) :
    (sortByKey f l).filter (fun z => decide (f z = v)) =
      l.filter (fun z => decide (f z = v)) := by
  induction l with
  | nil => rfl
  | cons x t ih =>
    simp only [sortByKey]
    rw [filter_insertByKeyLt]
    by_cases hx : f x = v <;> simp [List.filter_cons, hx, ih]

theorem mem_take_of_key_lt {α : Type} (f : α → ℝ) :
    ∀ (s : List α) (k : Nat) (p q : α), s.Pairwise (fun a b => f a ≤ f b) →
      p ∈ s.take k → q ∈ s → f q < f p → q ∈ s.take k := by
  intro s
  induction s with
  | nil =>
    intro k p q _ hp _ _
    simp at hp
  | cons x t ih =>
    intro k p q hpw hp hq hlt
    cases k with
    | zero => simp at hp
    | succ k2 =>
      rw [List.take_succ_cons] at hp ⊢
      rcases List.mem_cons.1 hq with rfl | hqt
      · exact List.mem_cons_self _ _
      · rcases List.mem_cons.1 hp with rfl | hpt
        · exact absurd hlt (not_lt.2 ((List.pairwise_cons.1 hpw).1 q hqt))
        · exact List.mem_cons_of_mem _
            (ih k2 p q (List.pairwise_cons.1 hpw).2 hpt hqt hlt)

theorem sortByKey_head_eq_pyMin {α : Type} (f : α → ℝ) (x : α) (l : List α) :
    ∃ t, sortByKey f (x :: l) = pyMin f x l :: t := by
  have hmem : pyMin f x l ∈ x :: l := pyMin_mem f l x
  have hlen : (sortByKey f (x :: l)).length = l.length + 1 := by
    simp [length_sortByKey]
  obtain ⟨h₀, t₀, hs⟩ : ∃ h₀ t₀, sortByKey f (x :: l) = h₀ :: t₀ := by
    cases hsk : sortByKey f (x :: l) with
    | nil => rw [hsk] at hlen; simp at hlen
    | cons a b => exact ⟨a, b, rfl⟩
  have hh0 : h₀ ∈ x :: l := by
    rw [← mem_sortByKey f h₀ (x :: l), hs]
    exact List.mem_cons_self h₀ t₀
  have hle : ∀ z ∈ x :: l, f h₀ ≤ f z := by
    intro z hz
    have hz2 : z ∈ sortByKey f (x :: l) := (mem_sortByKey f z (x :: l)).2 hz
    rw [hs] at hz2
    rcases List.mem_cons.1 hz2 with rfl | hz2
    · exact le_refl _
    · have hp := pairwise_sortByKey f (x :: l)
      rw [hs] at hp
      exact (List.pairwise_cons.1 hp).1 z hz2
  have hkey : f h₀ = f (pyMin f x l) :=
    le_antisymm (hle _ hmem) (pyMin_le f l x h₀ hh0)
  have h1 : List.find? (fun z => decide (f z = f (pyMin f x l))) (x :: l)
      = some (pyMin f x l) := by
    obtain ⟨l₁, l₂, heq, hlt⟩ := pyMin_split f l x
    rw [heq]
    refine find?_append_of_none _ l₁ _ l₂ (fun z hz => ?_) (by simp)
    simpa using ne_of_gt (hlt z hz)
  have h2 : List.find? (fun z => decide (f z = f (pyMin f x l))) (x :: l)
      = some h₀ := by
    rw [find?_eq_head?_filter, ← filter_sortByKey f (f (pyMin f x l)) (x :: l), hs,
      List.filter_cons]
    simp [hkey]
  rw [h1] at h2
  exact ⟨t₀, by rw [hs, ← Option.some_inj.1 h2]⟩

/-! ## Bridge lemmas for the resolver -/

theorem find_nearest_location_eq (svc : LocationService) (c : Coordinates)
    (a : Location) (rest : List Location) (ha : active_locations svc = a :: rest) :
    find_nearest_location svc c =
      Except.ok (pyMin (fun loc => calculate_distance c loc.coordinates) a rest,
        calculate_distance c
          (pyMin (fun loc => calculate_distance c loc.coordinates) a rest).coordinates) := by
  have hne : svc.locations ≠ [] := by
    intro hl
    rw [active_locations, hl] at ha
    simp at ha
  have hd : distances svc c =
      (a, calculate_distance c a.coordinates) ::
        rest.map (fun loc => (loc, calculate_distance c loc.coordinates)) := by
    rw [distances, ha, List.map_cons]
  have step : find_nearest_location svc c =
      Except.ok (pyMin (fun p : Location × ℝ => p.2)
        (a, calculate_distance c a.coordinates)
        (rest.map (fun loc => (loc, calculate_distance c loc.coordinates)))) := by
    simp only [find_nearest_location, if_neg hne, hd]
  rw [step]
  have hmap := pyMin_map (fun loc => calculate_distance c loc.coordinates) rest a
  simp only [hmap]

theorem find_nearest_n_locations_eq (svc : LocationService) (c : Coordinates) (n : Int)
    (a : Location) (rest : List Location) (ha : active_locations svc = a :: rest) :
    find_nearest_n_locations svc c n =
      Except.ok (pySlice (sortByKey (fun p : Location × ℝ => p.2) (distances svc c)) n) := by
  have hne : svc.locations ≠ [] := by
    intro hl
    rw [active_locations, hl] at ha
    simp at ha
  have hane : active_locations svc ≠ [] := by
    rw [ha]
    simp
  simp only [find_nearest_n_locations, if_neg hne, if_neg hane]

/-! ## Concrete fixtures used by witnesses and counterexamples -/

/-- An active hub at the origin. -/
def hubA : Location :=
  { id := "A", name := "A", address := "a", city := none, state := none,
    postal_code := none, country := none, coordinates := { latitude := 0, longitude := 0 },
    region := none, type := none, active := true }

/-- An active hub at longitude 1. -/
def hubB : Location :=
  { id := "B", name := "B", address := "b", city := none, state := none,
    postal_code := none, country := none, coordinates := { latitude := 0, longitude := 1 },
    region := none, type := none, active := true }

/-- A second active hub at the origin, distinct from `hubA` only in id/name:
equidistant from every query point. -/
def hubA2 : Location :=
  { id := "A2", name := "A2", address := "a2", city := none, state := none,
    postal_code := none, country := none, coordinates := { latitude := 0, longitude := 0 },
    region := none, type := none, active := true }

/-- A registry with one active hub. -/
def svc1 : LocationService := { locations := [hubA], last_loaded := none }

/-- A registry with two active hubs at distinct points. -/
def svc2 : LocationService := { locations := [hubA, hubB], last_loaded := none }

/-- A registry with two active hubs at the same point (a distance tie for
every query point). -/
def svcTie : LocationService := { locations := [hubA, hubA2], last_loaded := none }

/-! ## Claim theorems -/

/-- C1: for every query point and registry whose active-filtered hub set is
non-empty, `find_nearest_location` returns a pair `(hub, d)` with `hub` in
the registry, `hub.active = true`, `d` the great-circle distance from the
query point to the hub, and no active hub of the registry at a strictly
smaller distance. -/
theorem c1_find_nearest_correct (svc : LocationService) (c : Coordinates)
    (h : active_locations svc ≠ []) :
    ∃ hub d, find_nearest_location svc c = Except.ok (hub, d) ∧
      hub ∈ svc.locations ∧ hub.active = true ∧
      d = calculate_distance c hub.coordinates ∧
      ∀ loc ∈ svc.locations, loc.active = true →
        ¬ calculate_distance c loc.coordinates < d := by
  obtain ⟨a, rest, ha⟩ := List.exists_cons_of_ne_nil h
  refine ⟨pyMin (fun loc => calculate_distance c loc.coordinates) a rest,
    calculate_distance c
      (pyMin (fun loc => calculate_distance c loc.coordinates) a rest).coordinates,
    find_nearest_location_eq svc c a rest ha, ?_, ?_, rfl, ?_⟩
  · have hm : pyMin (fun loc => calculate_distance c loc.coordinates) a rest ∈ a :: rest :=
      pyMin_mem _ rest a
    rw [← ha] at hm
    simp only [active_locations] at hm
    exact (List.mem_filter.1 hm).1
  · have hm : pyMin (fun loc => calculate_distance c loc.coordinates) a rest ∈ a :: rest :=
      pyMin_mem _ rest a
    rw [← ha] at hm
    simp only [active_locations] at hm
    exact (List.mem_filter.1 hm).2
  · intro loc hloc hact
    have hmem : loc ∈ active_locations svc := by
      simp only [active_locations]
      exact List.mem_filter.2 ⟨hloc, hact⟩
    rw [ha] at hmem
    exact not_lt.2 (pyMin_le (fun loc => calculate_distance c loc.coordinates) rest a loc hmem)

/-- Witness for C1 at a concrete one-hub registry. -/
theorem c1_find_nearest_correct_witness :
    active_locations svc1 ≠ [] ∧
      ∃ hub d,
        find_nearest_location svc1 { latitude := 0, longitude := 0 } = Except.ok (hub, d) ∧
        hub ∈ svc1.locations ∧ hub.active = true ∧
        d = calculate_distance { latitude := 0, longitude := 0 } hub.coordinates ∧
        ∀ loc ∈ svc1.locations, loc.active = true →
          ¬ calculate_distance { latitude := 0, longitude := 0 } loc.coordinates < d :=
  ⟨by decide, c1_find_nearest_correct svc1 { latitude := 0, longitude := 0 } (by decide)⟩

/-- C2: `find_nearest_location` and `find_nearest_n_locations` report an
error exactly when the active-filtered hub set is empty (never-loaded and
all-inactive registries included, both via the same exception type), and in
that case there is no `ok` result at all: no zero distance or placeholder
hub is substituted. -/
theorem c2_error_iff_no_candidates (svc : LocationService) (c : Coordinates) (n : Int) :
    ((∃ e, find_nearest_location svc c = Except.error e) ↔ active_locations svc = []) ∧
    ((∃ e, find_nearest_n_locations svc c n = Except.error e) ↔ active_locations svc = []) := by
  by_cases hL : svc.locations = []
  · have ha : active_locations svc = [] := by simp [active_locations, hL]
    refine ⟨⟨fun _ => ha, fun _ => ⟨"No locations loaded", ?_⟩⟩,
      ⟨fun _ => ha, fun _ => ⟨"No locations loaded", ?_⟩⟩⟩
    · simp [find_nearest_location, hL]
    · simp [find_nearest_n_locations, hL]
  · by_cases ha : active_locations svc = []
    · have hd : distances svc c = [] := by simp [distances, ha]
      refine ⟨⟨fun _ => ha, fun _ => ⟨"No active locations found", ?_⟩⟩,
        ⟨fun _ => ha, fun _ => ⟨"No active locations found", ?_⟩⟩⟩
      · simp [find_nearest_location, hL, hd]
      · simp [find_nearest_n_locations, hL, ha]
    · obtain ⟨a, rest, haa⟩ := List.exists_cons_of_ne_nil ha
      have h1 := find_nearest_location_eq svc c a rest haa
      have h2 := find_nearest_n_locations_eq svc c n a rest haa
      refine ⟨⟨?_, fun hc => absurd hc ha⟩, ⟨?_, fun hc => absurd hc ha⟩⟩
      · rintro ⟨e, he⟩
        rw [h1] at he
        simp at he
      · rintro ⟨e, he⟩
        rw [h2] at he
        simp at he

/-- C4: the returned hub is the first hub, in registry load order, that is
active and whose distance equals the returned (minimal) distance; in
particular under floating-point-equal ties the hub encountered first in the
registry wins. Determinism across calls is inherent: the resolver is a pure
function of its arguments. -/
theorem c4_tie_first_in_registry (svc : LocationService) (c : Coordinates)
    (h : active_locations svc ≠ []) :
    ∃ hub d, find_nearest_location svc c = Except.ok (hub, d) ∧
      svc.locations.find?
        (fun loc => loc.active && decide (calculate_distance c loc.coordinates = d))
        = some hub := by
  obtain ⟨a, rest, ha⟩ := List.exists_cons_of_ne_nil h
  refine ⟨pyMin (fun loc => calculate_distance c loc.coordinates) a rest,
    calculate_distance c
      (pyMin (fun loc => calculate_distance c loc.coordinates) a rest).coordinates,
    find_nearest_location_eq svc c a rest ha, ?_⟩
  have h2 : (active_locations svc).find?
      (fun loc => decide (calculate_distance c loc.coordinates =
        calculate_distance c
          (pyMin (fun loc => calculate_distance c loc.coordinates) a rest).coordinates))
      = some (pyMin (fun loc => calculate_distance c loc.coordinates) a rest) := by
    rw [ha]
    obtain ⟨l₁, l₂, heq, hlt⟩ :=
      pyMin_split (fun loc => calculate_distance c loc.coordinates) rest a
    rw [heq]
    refine find?_append_of_none _ l₁ _ l₂ (fun z hz => ?_) (by simp)
    simpa using ne_of_gt (hlt z hz)
  calc svc.locations.find?
        (fun loc => loc.active && decide (calculate_distance c loc.coordinates =
          calculate_distance c
            (pyMin (fun loc => calculate_distance c loc.coordinates) a rest).coordinates))
      = (svc.locations.filter (fun loc => loc.active)).find?
          (fun loc => decide (calculate_distance c loc.coordinates =
            calculate_distance c
              (pyMin (fun loc => calculate_distance c loc.coordinates) a rest).coordinates)) :=
        (find?_filter_eq _ _ _).symm
    _ = some (pyMin (fun loc => calculate_distance c loc.coordinates) a rest) := h2

/-- Witness for C4 at a registry with two identically-placed active hubs. -/
theorem c4_tie_first_in_registry_witness :
    active_locations svcTie ≠ [] ∧
      ∃ hub d,
        find_nearest_location svcTie { latitude := 0, longitude := 1 } = Except.ok (hub, d) ∧
        svcTie.locations.find?
          (fun loc => loc.active &&
            decide (calculate_distance { latitude := 0, longitude := 1 } loc.coordinates = d))
          = some hub :=
  ⟨by decide, c4_tie_first_in_registry svcTie { latitude := 0, longitude := 1 } (by decide)⟩

/-- C10: whenever the registry has an active hub and `n ≥ 1`, the first
element of the `find_nearest_n_locations` result is exactly the pair
returned by `find_nearest_location`, ties included (both scans are stable
with respect to registry order). -/
theorem c10_nearestN_head_eq_nearest (svc : LocationService) (c : Coordinates) (n : Int)
    (h : active_locations svc ≠ []) (hn : 1 ≤ n) :
    ∃ best rest2, find_nearest_location svc c = Except.ok best ∧
      find_nearest_n_locations svc c n = Except.ok (best :: rest2) := by
  obtain ⟨a, rest, ha⟩ := List.exists_cons_of_ne_nil h
  have hfe := find_nearest_location_eq svc c a rest ha
  have hd : distances svc c =
      (a, calculate_distance c a.coordinates) ::
        rest.map (fun loc => (loc, calculate_distance c loc.coordinates)) := by
    rw [distances, ha, List.map_cons]
  obtain ⟨t0, ht0⟩ := sortByKey_head_eq_pyMin (fun p : Location × ℝ => p.2)
    (a, calculate_distance c a.coordinates)
    (rest.map (fun loc => (loc, calculate_distance c loc.coordinates)))
  have hmap := pyMin_map (fun loc => calculate_distance c loc.coordinates) rest a
  simp only [hmap] at ht0
  have hn0 : (0 : Int) ≤ n := by omega
  obtain ⟨k, hk⟩ : ∃ k, n.toNat = k + 1 := ⟨n.toNat - 1, by omega⟩
  have hslice : pySlice (sortByKey (fun p : Location × ℝ => p.2) (distances svc c)) n
      = (pyMin (fun loc => calculate_distance c loc.coordinates) a rest,
          calculate_distance c
            (pyMin (fun loc => calculate_distance c loc.coordinates) a rest).coordinates)
        :: t0.take k := by
    rw [pySlice, if_pos hn0, hd, ht0, hk, List.take_succ_cons]
  refine ⟨_, t0.take k, hfe, ?_⟩
  rw [find_nearest_n_locations_eq svc c n a rest ha, hslice]

/-- Witness for C10 at a concrete one-hub registry with `n = 1`. -/
theorem c10_nearestN_head_eq_nearest_witness :
    active_locations svc1 ≠ [] ∧ (1 : Int) ≤ 1 ∧
      ∃ best rest2,
        find_nearest_location svc1 { latitude := 0, longitude := 0 } = Except.ok best ∧
        find_nearest_n_locations svc1 { latitude := 0, longitude := 0 } 1 =
          Except.ok (best :: rest2) :=
  ⟨by decide, by norm_num,
    c10_nearestN_head_eq_nearest svc1 { latitude := 0, longitude := 0 } 1 (by decide) (by norm_num)⟩

/-- C3 (amended): with at least one active hub, `find_nearest_n_locations`
returns (no error) a list of length `min n count` for `n ≥ 0` (so `n = 0`
gives the empty list) and of length `max 0 (count + n)` for `n < 0` (Python
slice semantics: `sorted(...)[:n]` with negative `n` drops the last `|n|`
entries instead of returning the empty list); the list is sorted ascending
by distance, contains only active registry hubs paired with their distance,
and consists of the nearest candidates: every candidate strictly nearer
than a returned pair is itself returned (so the result is the `n` smallest
distances), and for every distance value the returned entries with that
distance form a prefix of the equally-distant entries of the
registry-ordered candidate list (ties broken by registry order: a
truncation of the stable full sort). -/
theorem c3_nearestN_amended (svc : LocationService) (c : Coordinates) (n : Int)
    (h : active_locations svc ≠ []) :
    ∃ l, find_nearest_n_locations svc c n = Except.ok l ∧
      l.length = (if 0 ≤ n then min n.toNat (active_locations svc).length
        else (((active_locations svc).length : Int) + n).toNat) ∧
      List.Pairwise (fun p q : Location × ℝ => p.2 ≤ q.2) l ∧
      (∀ p ∈ l, p.1 ∈ svc.locations ∧ p.1.active = true ∧
        p.2 = calculate_distance c p.1.coordinates) ∧
      (∀ p ∈ l, ∀ q ∈ distances svc c, q.2 < p.2 → q ∈ l) ∧
      (∀ v : ℝ, ∃ t2, (distances svc c).filter (fun p => decide (p.2 = v)) =
        l.filter (fun p => decide (p.2 = v)) ++ t2) := by
  obtain ⟨a, rest, ha⟩ := List.exists_cons_of_ne_nil h
  have hsub : List.Sublist
      (pySlice (sortByKey (fun p : Location × ℝ => p.2) (distances svc c)) n)
      (sortByKey (fun p : Location × ℝ => p.2) (distances svc c)) := by
    rw [pySlice]
    split
    · exact List.take_sublist _ _
    · exact List.take_sublist _ _
  obtain ⟨k, hk⟩ : ∃ k,
      pySlice (sortByKey (fun p : Location × ℝ => p.2) (distances svc c)) n
        = (sortByKey (fun p : Location × ℝ => p.2) (distances svc c)).take k := by
    rw [pySlice]
    split
    · exact ⟨_, rfl⟩
    · exact ⟨_, rfl⟩
  have hlen_d : (distances svc c).length = (active_locations svc).length := by
    rw [distances, List.length_map]
  have hlen_s : (sortByKey (fun p : Location × ℝ => p.2) (distances svc c)).length
      = (active_locations svc).length := by rw [length_sortByKey, hlen_d]
  refine ⟨_, find_nearest_n_locations_eq svc c n a rest ha, ?_, ?_, ?_, ?_, ?_⟩
  · by_cases hn0 : (0 : Int) ≤ n
    · rw [pySlice, if_pos hn0, List.length_take, hlen_s, if_pos hn0]
    · rw [pySlice, if_neg hn0, List.length_take, hlen_s, if_neg hn0]
      omega
  · exact List.Pairwise.sublist hsub (pairwise_sortByKey _ _)
  · intro p hp
    have hp_s : p ∈ sortByKey (fun p : Location × ℝ => p.2) (distances svc c) :=
      hsub.subset hp
    have hp_d : p ∈ distances svc c := (mem_sortByKey _ _ _).1 hp_s
    rw [distances] at hp_d
    obtain ⟨loc, hloc, hpe⟩ := List.mem_map.1 hp_d
    subst hpe
    simp only [active_locations] at hloc
    exact ⟨(List.mem_filter.1 hloc).1, (List.mem_filter.1 hloc).2, rfl⟩
  · intro p hp q hq hlt
    rw [hk] at hp ⊢
    exact mem_take_of_key_lt (fun p : Location × ℝ => p.2) _ k p q
      (pairwise_sortByKey _ _) hp ((mem_sortByKey _ _ _).2 hq) hlt
  · intro v
    refine ⟨((sortByKey (fun p : Location × ℝ => p.2) (distances svc c)).drop k).filter
      (fun p => decide (p.2 = v)), ?_⟩
    rw [hk, ← List.filter_append, List.take_append_drop]
    exact (filter_sortByKey (fun p : Location × ℝ => p.2) v (distances svc c)).symm

/-- Witness for the amended C3 at a concrete two-hub registry with `n = 1`. -/
theorem c3_nearestN_amended_witness :
    active_locations svc2 ≠ [] ∧
      ∃ l, find_nearest_n_locations svc2 { latitude := 0, longitude := 0 } 1 = Except.ok l ∧
        l.length = (if (0 : Int) ≤ 1 then min (1 : Int).toNat (active_locations svc2).length
          else (((active_locations svc2).length : Int) + 1).toNat) ∧
        List.Pairwise (fun p q : Location × ℝ => p.2 ≤ q.2) l ∧
        (∀ p ∈ l, p.1 ∈ svc2.locations ∧ p.1.active = true ∧
          p.2 = calculate_distance { latitude := 0, longitude := 0 } p.1.coordinates) ∧
        (∀ p ∈ l, ∀ q ∈ distances svc2 { latitude := 0, longitude := 0 },
          q.2 < p.2 → q ∈ l) ∧
        (∀ v : ℝ, ∃ t2,
          (distances svc2 { latitude := 0, longitude := 0 }).filter (fun p => decide (p.2 = v)) =
            l.filter (fun p => decide (p.2 = v)) ++ t2) :=
  ⟨by decide, c3_nearestN_amended svc2 { latitude := 0, longitude := 0 } 1 (by decide)⟩

/-- Counterexample to C3 as stated: for `n = -1` and a registry with two
active hubs, `find_nearest_n_locations` returns a non-empty list (Python's
`sorted(...)[:-1]` drops only the last element), not the empty sequence the
claim requires for every `n ≤ 0`. -/
theorem c3_counterexample :
    active_locations svc2 ≠ [] ∧ (-1 : Int) ≤ 0 ∧
      ∃ l, find_nearest_n_locations svc2 { latitude := 0, longitude := 0 } (-1) =
          Except.ok l ∧ l ≠ [] := by
  have ha : active_locations svc2 = hubA :: [hubB] := by decide
  have hlen2 : (distances svc2 { latitude := 0, longitude := 0 }).length = 2 := by
    rw [distances, List.length_map, ha]
    rfl
  refine ⟨by decide, by norm_num, _,
    find_nearest_n_locations_eq svc2 { latitude := 0, longitude := 0 } (-1) hubA [hubB] ha, ?_⟩
  have hl : (pySlice (sortByKey (fun p : Location × ℝ => p.2)
      (distances svc2 { latitude := 0, longitude := 0 })) (-1)).length = 1 := by
    rw [pySlice, if_neg (by norm_num), List.length_take, length_sortByKey, hlen2]
    omega
  intro hnil
  rw [hnil] at hl
  simp at hl

/-- C6: a source-level load failure (the raw-record source is an error)
surfaces as a `LocationServiceError` from both `load_locations` and
`reload_locations`, and leaves the registry state — hub sequence and
`last_loaded` — exactly as it was before the call. -/
theorem c6_failed_load_preserves_state (svc : LocationService) (msg : String) (now : Nat) :
    (load_locations svc (Except.error msg) now).1 = svc ∧
    (∃ e, (load_locations svc (Except.error msg) now).2 = Except.error e) ∧
    (reload_locations svc (Except.error msg) now).1 = svc ∧
    (∃ e, (reload_locations svc (Except.error msg) now).2 = Except.error e) :=
  ⟨rfl, ⟨_, rfl⟩, rfl, ⟨_, rfl⟩⟩

/-- A well-formed raw record with the given name and coordinates. -/
def goodRecord (nm : String) (lat lon : ℚ) : RawRecord :=
  { name := some nm, address := some "addr",
    latitude := Cell.num lat, longitude := Cell.num lon }

/-- A raw record whose latitude cell does not parse as a number. -/
def badLatRecord : RawRecord :=
  { name := some "h3", address := some "addr",
    latitude := Cell.nonNumeric, longitude := Cell.num 0 }

/-- Five raw records of which exactly one (the third) has a non-numeric
latitude. -/
def fiveRecords : List RawRecord :=
  [goodRecord "h1" 1 1, goodRecord "h2" 2 2, badLatRecord,
   goodRecord "h4" 4 4, goodRecord "h5" 5 5]

/-- C7: a raw record with a missing required field or a non-numeric or
out-of-range coordinate (`parseRecord r = none`) is skipped and the load
continues as if the record were absent; in particular loading the five
records of `fiveRecords`, one of which has a non-numeric latitude, succeeds
(no `LocationServiceError`) with exactly the four well-formed hubs. -/
theorem c7_bad_row_skipped :
    (∀ (svc : LocationService) (now : Nat) (pre post : List RawRecord) (r : RawRecord),
      parseRecord r = none →
        load_locations svc (Except.ok (pre ++ r :: post)) now =
          load_locations svc (Except.ok (pre ++ post)) now) ∧
    (∃ st locs, load_locations LocationService.init (Except.ok fiveRecords) 7 =
        (st, Except.ok locs) ∧
      locs.length = 4 ∧ locs.map (fun loc => loc.name) = ["h1", "h2", "h4", "h5"]) := by
  constructor
  · intro svc now pre post r hr
    simp only [load_locations, _load_from_csv, List.filterMap_append, List.filterMap_cons, hr]
  · exact ⟨_, _, rfl, rfl, rfl⟩

/-- Witness for C7: the skip property applied to a concrete bad record. -/
theorem c7_bad_row_skipped_witness :
    parseRecord badLatRecord = none ∧
      load_locations LocationService.init
          (Except.ok ([goodRecord "h1" 1 1] ++ badLatRecord :: [goodRecord "h2" 2 2])) 0 =
        load_locations LocationService.init
          (Except.ok ([goodRecord "h1" 1 1] ++ [goodRecord "h2" 2 2])) 0 :=
  ⟨by decide, c7_bad_row_skipped.1 LocationService.init 0 [goodRecord "h1" 1 1]
    [goodRecord "h2" 2 2] badLatRecord (by decide)⟩

/-- C8: `calculate_distance` is symmetric — exactly, hence in particular
within `1e-9` relative tolerance — and the distance from a point to itself
is exactly 0. -/
theorem c8_distance_symmetric_and_zero_on_self (p q : Coordinates) :
    calculate_distance p q = calculate_distance q p ∧
    |calculate_distance p q - calculate_distance q p| ≤ 1e-9 * |calculate_distance p q| ∧
    calculate_distance p p = 0 := by
  have hsym : calculate_distance p q = calculate_distance q p := by
    rw [calculate_distance_eq, calculate_distance_eq, haversineKm_symm]
  refine ⟨hsym, ?_, ?_⟩
  · rw [hsym, sub_self, abs_zero]
    positivity
  · rw [calculate_distance_eq, haversineKm_self]

/-- C9: on the never-loaded (empty) registry every structural query returns
an empty result instead of raising: `get_location_by_id` is `none` for every
id, `get_locations_by_region` is `[]` for every region, and
`get_locations_count` is `(total, active, inactive) = (0, 0, 0)`. -/
theorem c9_empty_registry_queries (location_id region : String) :
    get_location_by_id LocationService.init location_id = none ∧
    get_locations_by_region LocationService.init region = [] ∧
    get_locations_count LocationService.init = (0, 0, 0) :=
  ⟨rfl, rfl, rfl⟩

end Geoloc
